import Mathlib

/-!
Verification of the C web server (`src/server.c`) against its
natural-language specification.

The server answers HTTP GET requests: `/d20` returns a fresh random
integer in [1,20] as text/plain, any other path is served from the
`./serverroot` directory through a bounded LRU content cache, with an
`index.html` fallback and a fixed 404 document.

The shallow embedding below models the external collaborators
(file loader, MIME resolver, the C `rand`/`srand` generator) as
components of an `Env` record, and each handler as a pure function
returning the updated cache together with the ordered list of
observable events it performs (cache lookups, cache insertions, file
loads, responses sent, process exit).
-/

namespace CWebServer

/-- Bytes of a C string (as produced by `sprintf` into a `char` buffer). -/
def strBytes (s : String) : List Nat := s.data.map Char.toNat

/-- Result of the external file loader (`file.c`, `struct file_data`):
the full byte contents and their length. -/
structure FileData where
  data : List Nat
  size : Nat
deriving Repr, DecidableEq

/-- Modelled from the spec: `cache.c` is not among the repository sources,
so the cache entry follows §3 of the spec — key (the resolved file path),
MIME content type, content bytes, and byte length. -/
structure CacheEntry where
  key : String
  content_type : String
  content : List Nat
  content_length : Nat
deriving Repr, DecidableEq

/-- Modelled from the spec: the Content Cache of §3/§4.1.  `entries` is the
recency sequence, most-recently-used first; by Invariant I2 its key set
coincides with the index, so the single list plays both roles (`index` is
the set of entries, `recency` their order). -/
structure Cache where
  capacity : Nat
  entries : List CacheEntry
deriving Repr, DecidableEq

/-- Modelled from the spec: `create(capacity)` — an empty cache with the
given fixed capacity (`cache_create(10, 0)` at `server.c:239`; the second
argument is the hash-table size hint, irrelevant to the abstract state). -/
def cache_create (max : Nat) : Cache :=
  { capacity := max, entries := [] }

/-- The keys currently stored, most-recently-used first. -/
def cacheKeys (c : Cache) : List String := c.entries.map (·.key)

/-- Modelled from the spec: `get(cache, key)` — the entry if present
(a hit also promotes the key to most-recently-used, Invariant I3);
on a miss, no state change. -/
def cache_get (c : Cache) (key : String) : Option CacheEntry × Cache :=
  match c.entries.find? (fun e => e.key == key) with
  | none => (none, c)
  | some e => (some e, { c with entries := e :: c.entries.filter (fun e2 => e2.key != key) })

/-- Modelled from the spec: `put(cache, key, contentType, content, size)` —
overwrite-and-promote if the key is present; otherwise evict the
least-recently-used entry (the recency tail) when full, then insert the
new entry as most-recently-used. -/
def cache_put (c : Cache) (key content_type : String)
    (content : List Nat) (content_length : Nat) : Cache :=
  let e : CacheEntry := ⟨key, content_type, content, content_length⟩
  if (c.entries.find? (fun x => x.key == key)).isSome then
    { c with entries := e :: c.entries.filter (fun x => x.key != key) }
  else if c.entries.length = c.capacity then
    { c with entries := e :: c.entries.dropLast }
  else
    { c with entries := e :: c.entries }

/-- A `put` call's arguments other than the cache: key, content type,
content bytes, content length. -/
abbrev PutOp := String × String × List Nat × Nat

/-- Apply a sequence of `put` calls in order. -/
def putList (c : Cache) (ops : List PutOp) : Cache :=
  ops.foldl (fun c o => cache_put c o.1 o.2.1 o.2.2.1 o.2.2.2) c

/-- An HTTP response as assembled and transmitted by `send_response`
(`server.c:51`): status line, content type, body bytes, content length. -/
structure Response where
  header : String
  content_type : String
  body : List Nat
  content_length : Nat
deriving Repr, DecidableEq

/-- Observable events of request handling, in program order. -/
inductive Event where
  | cacheGetEv (key : String)
  | cachePutEv (key : String) (content_type : String) (content : List Nat) (content_length : Nat)
  | fileLoadEv (path : String)
  | respond (r : Response)
  | exitProc (code : Nat)
deriving Repr, DecidableEq

/-- The external collaborators: the file loader (`file_load`), the MIME
resolver (`mime_type_get`), and the C random generator — `firstRand seed`
is the value of the first `rand()` call after `srand(seed)`, which in C is
a deterministic non-negative function of the seed. -/
structure Env where
  file_load : String → Option FileData
  mime_type_get : String → String
  firstRand : Nat → Nat

/-- Embedding of `get_d20` (`server.c:87`): reseed with the current time `t`, draw once,
and respond 200 text/plain with the decimal string of `rand() % 20 + 1`. -/
def get_d20 (env : Env) (t : Nat) : List Event :=
  let d20 := env.firstRand t % 20 + 1
  let body := strBytes (Nat.repr d20)
  [.respond { header := "HTTP/1.1 200 OK", content_type := "text/plain",
              body := body, content_length := body.length }]

/-- Embedding of `resp_404` (`server.c:105`): load `./serverfiles/404.html`; if that
fails, `exit(3)`; otherwise send it with status 404. -/
def resp_404 (env : Env) : List Event :=
  match env.file_load ("./serverfiles/404.html") with
  | none => [.fileLoadEv ("./serverfiles/404.html"), .exitProc 3]
  | some filedata =>
      [.fileLoadEv ("./serverfiles/404.html"),
       .respond { header := "HTTP/1.1 404 NOT FOUND",
                  content_type := env.mime_type_get ("./serverfiles/404.html"),
                  body := filedata.data, content_length := filedata.size }]

/-- Embedding of `get_file` (`server.c:132`): resolve `"./serverroot" ++ request_path`,
consult the cache; on a hit serve the cached entry; on a miss load the
file, falling back to `"./serverroot/" ++ request_path ++ "/index.html"`,
cache any successful load under the resolved path, and serve it; if both
loads fail, `resp_404`. -/
def get_file (env : Env) (cache : Cache) (request_path : String) : Cache × List Event :=
  let filepath := "./serverroot" ++ request_path
  match cache_get cache filepath with
  | (some ce, cache1) =>
      (cache1,
       [.cacheGetEv filepath,
        .respond { header := "HTTP/1.1 200 OK", content_type := ce.content_type,
                   body := ce.content, content_length := ce.content_length }])
  | (none, cache1) =>
      match env.file_load filepath with
      | some filedata =>
          let mime_type := env.mime_type_get filepath
          (cache_put cache1 filepath mime_type filedata.data filedata.size,
           [.cacheGetEv filepath, .fileLoadEv filepath,
            .cachePutEv filepath mime_type filedata.data filedata.size,
            .respond { header := "HTTP/1.1 200 OK", content_type := mime_type,
                       body := filedata.data, content_length := filedata.size }])
      | none =>
          let filepath2 := "./serverroot/" ++ request_path ++ "/index.html"
          match env.file_load filepath2 with
          | some filedata =>
              let mime_type := env.mime_type_get filepath2
              (cache_put cache1 filepath2 mime_type filedata.data filedata.size,
               [.cacheGetEv filepath, .fileLoadEv filepath, .fileLoadEv filepath2,
                .cachePutEv filepath2 mime_type filedata.data filedata.size,
                .respond { header := "HTTP/1.1 200 OK", content_type := mime_type,
                           body := filedata.data, content_length := filedata.size }])
          | none =>
              (cache1, [.cacheGetEv filepath, .fileLoadEv filepath, .fileLoadEv filepath2]
                        ++ resp_404 env)

/-- The method and URI tokens parsed by `sscanf` from the request's first
line (`server.c:211`); the protocol token is parsed but unused. -/
structure Request where
  method : String
  uri : String
deriving Repr, DecidableEq

/-- Embedding of `handle_http_request` (`server.c:192`): `none` models `recv` failing
(`bytes_recvd < 0` — log and return without responding); for a received
request, dispatch GET `/d20` to `get_d20`, any other GET URI to
`get_file`, and do nothing for non-GET methods. -/
def handle_http_request (env : Env) (t : Nat) (cache : Cache)
    (recvd : Option Request) : Cache × List Event :=
  match recvd with
  | none => (cache, [])
  | some req =>
      if req.method = "GET" then
        if req.uri = "/d20" then (cache, get_d20 env t)
        else get_file env cache req.uri
      else (cache, [])

/-- Repeated identical static-file requests: the cache state after `n`
requests for `request_path`. -/
def iterateGetFile (env : Env) (p : String) : Nat → Cache → Cache
  | 0, c => c
  | n + 1, c => iterateGetFile env p n (get_file env c p).1

/-- A concrete environment used by witnesses: one file under the server
root, an `index.html` fallback for the directory request `/dir`, and the
fixed 404 document. -/
def envW : Env where
  file_load := fun s =>
    if s = "./serverroot/x" then some ⟨[120], 1⟩
    else if s = "./serverroot//dir/index.html" then some ⟨[100], 1⟩
    else if s = "./serverfiles/404.html" then some ⟨[52], 1⟩
    else none
  mime_type_get := fun _ => "text/html"
  firstRand := fun _ => 0

/-- A concrete environment with no files at all (for the fatal-404 witness). -/
def envEmpty : Env where
  file_load := fun _ => none
  mime_type_get := fun _ => "text/plain"
  firstRand := fun _ => 0

/-! ### Basic cache lemmas -/

theorem cache_put_capacity (c : Cache) (k ct : String) (b : List Nat) (n : Nat) :
    (cache_put c k ct b n).capacity = c.capacity := by
  unfold cache_put
  split
  · rfl
  · split <;> rfl

theorem cache_get_fst (c : Cache) (k : String) :
    (cache_get c k).1 = c.entries.find? (fun e => e.key == k) := by
  rcases h : c.entries.find? (fun e => e.key == k) with _ | e <;> simp [cache_get, h]

theorem cache_get_fst_none_iff (c : Cache) (k : String) :
    (cache_get c k).1 = none ↔ k ∉ cacheKeys c := by
  rw [cache_get_fst, List.find?_eq_none]
  simp [cacheKeys]

theorem cache_get_fst_isSome_iff (c : Cache) (k : String) :
    ((cache_get c k).1).isSome ↔ k ∈ cacheKeys c := by
  rw [cache_get_fst, List.find?_isSome]
  simp [cacheKeys]

theorem cache_get_miss (c : Cache) (k : String) (h : (cache_get c k).1 = none) :
    cache_get c k = (none, c) := by
  rw [cache_get_fst] at h
  simp [cache_get, h]

theorem find?_key_eq_none (c : Cache) (k : String) (h : k ∉ cacheKeys c) :
    c.entries.find? (fun x => x.key == k) = none := by
  rw [List.find?_eq_none]
  intro x hx
  simp only [beq_iff_eq]
  exact fun he => h (List.mem_map.mpr ⟨x, hx, he⟩)

theorem cache_put_length_le (c : Cache) (k ct : String) (b : List Nat) (n : Nat)
    (hcap : 1 ≤ c.capacity) (hle : c.entries.length ≤ c.capacity) :
    (cache_put c k ct b n).entries.length ≤ c.capacity := by
  unfold cache_put
  split
  · rename_i hsome
    simp only [List.length_cons]
    have hlt : (c.entries.filter (fun x => x.key != k)).length < c.entries.length := by
      rw [List.length_filter_lt_length_iff_exists]
      obtain ⟨e, he⟩ := Option.isSome_iff_exists.mp hsome
      refine ⟨e, List.mem_of_find?_eq_some he, ?_⟩
      have hkey := List.find?_some he
      simp only [bne, Bool.not_eq_true']
      simpa using hkey
    omega
  · split
    · rename_i hlen
      simp only [List.length_cons, List.length_dropLast]
      omega
    · rename_i hlen
      simp only [List.length_cons]
      omega

theorem cacheKeys_put_absent_notfull (c : Cache) (k ct : String) (b : List Nat) (n : Nat)
    (habs : k ∉ cacheKeys c) (hlen : c.entries.length ≠ c.capacity) :
    cacheKeys (cache_put c k ct b n) = k :: cacheKeys c := by
  have hf := find?_key_eq_none c k habs
  simp [cache_put, hf, hlen, cacheKeys]

theorem cacheKeys_put_absent_full (c : Cache) (k ct : String) (b : List Nat) (n : Nat)
    (habs : k ∉ cacheKeys c) (hlen : c.entries.length = c.capacity) :
    cacheKeys (cache_put c k ct b n) = k :: (cacheKeys c).dropLast := by
  have hf := find?_key_eq_none c k habs
  simp [cache_put, hf, hlen, cacheKeys, List.map_dropLast]

theorem putList_capacity (ops : List PutOp) (c : Cache) :
    (putList c ops).capacity = c.capacity := by
  induction ops generalizing c with
  | nil => rfl
  | cons o ops ih =>
      show (putList (cache_put c o.1 o.2.1 o.2.2.1 o.2.2.2) ops).capacity = c.capacity
      rw [ih, cache_put_capacity]

theorem putList_length_le (ops : List PutOp) (c : Cache)
    (hcap : 1 ≤ c.capacity) (hle : c.entries.length ≤ c.capacity) :
    (putList c ops).entries.length ≤ c.capacity := by
  induction ops generalizing c with
  | nil => exact hle
  | cons o ops ih =>
      show (putList (cache_put c o.1 o.2.1 o.2.2.1 o.2.2.2) ops).entries.length ≤ c.capacity
      have h1 := cache_put_capacity c o.1 o.2.1 o.2.2.1 o.2.2.2
      have h2 := cache_put_length_le c o.1 o.2.1 o.2.2.1 o.2.2.2 hcap hle
      have h3 := ih (cache_put c o.1 o.2.1 o.2.2.1 o.2.2.2)
        (by rw [h1]; exact hcap) (by rw [h1]; exact h2)
      rw [h1] at h3
      exact h3

/-- Filling an under-capacity cache with fresh distinct keys stacks them in
reverse order of insertion on top of the existing recency sequence. -/
theorem putList_fill (ops : List PutOp) (c : Cache)
    (hnd : (ops.map (fun o => o.1)).Nodup)
    (hdisj : ∀ k ∈ ops.map (fun o => o.1), k ∉ cacheKeys c)
    (hlen : c.entries.length + ops.length ≤ c.capacity) :
    cacheKeys (putList c ops) = (ops.map (fun o => o.1)).reverse ++ cacheKeys c := by
  induction ops generalizing c with
  | nil => simp [putList]
  | cons o ops ih =>
      simp only [List.map_cons] at hnd hdisj
      have habs : o.1 ∉ cacheKeys c := hdisj o.1 (by simp)
      have hne : c.entries.length ≠ c.capacity := by
        simp only [List.length_cons] at hlen
        omega
      have hkeys := cacheKeys_put_absent_notfull c o.1 o.2.1 o.2.2.1 o.2.2.2 habs hne
      have hlen' : (cache_put c o.1 o.2.1 o.2.2.1 o.2.2.2).entries.length
          = c.entries.length + 1 := by
        have := congrArg List.length hkeys
        simpa [cacheKeys] using this
      rw [List.nodup_cons] at hnd
      obtain ⟨ho, hnd2⟩ := hnd
      have hrec := ih (cache_put c o.1 o.2.1 o.2.2.1 o.2.2.2) hnd2
        (by
          intro k hk
          rw [hkeys]
          simp only [List.mem_cons, not_or]
          exact ⟨fun h => ho (h ▸ hk), hdisj k (List.mem_cons_of_mem _ hk)⟩)
        (by
          rw [hlen', cache_put_capacity]
          simp only [List.length_cons] at hlen
          omega)
      show cacheKeys (putList (cache_put c o.1 o.2.1 o.2.2.1 o.2.2.2) ops)
          = ((o :: ops).map (fun o => o.1)).reverse ++ cacheKeys c
      rw [hrec, hkeys]
      simp [List.append_assoc]

/-! ### Claims about the cache (C1, C2) -/

/-- C1: For every sequence of `put` calls with distinct keys on a cache
created with capacity 10 (`cache_create(10, 0)` at `server.c:239`), after
each call — i.e. after every prefix of the sequence — the number of
entries in the cache's index is at most 10 (Invariant I1). -/
theorem c1_capacity_invariant (ops : List PutOp)
    (hdistinct : (ops.map (fun o => o.1)).Nodup) (i : Nat) :
    (putList (cache_create 10) (ops.take i)).entries.length ≤ 10 :=
  putList_length_le (ops.take i) (cache_create 10) (by decide) (by decide)

/-- Witness for C1 at a concrete two-put sequence with distinct keys. -/
theorem c1_witness :
    (([("a", "text/plain", [65], 1), ("b", "text/plain", [66], 1)] : List PutOp).map
      (fun o => o.1)).Nodup ∧
    (putList (cache_create 10)
      (([("a", "text/plain", [65], 1), ("b", "text/plain", [66], 1)] : List PutOp).take 2)).entries.length ≤ 10 :=
  ⟨by decide,
   c1_capacity_invariant [("a", "text/plain", [65], 1), ("b", "text/plain", [66], 1)]
     (by decide) 2⟩

/-- C2: For a cache of capacity `C` (≥ 1, the spec's precondition on
`create`), inserting `C+1` distinct keys `k1, …, k(C+1)` in order with no
intervening `get` calls evicts exactly `k1`: afterwards `get k1` is empty
and `get k` is present for every one of the later keys. -/
theorem c2_lru_eviction (C : Nat) (hC : 1 ≤ C) (ops : List PutOp)
    (k1 : String) (rest : List String)
    (hkeys : ops.map (fun o => o.1) = k1 :: rest)
    (hlen : ops.length = C + 1)
    (hnd : (k1 :: rest).Nodup) :
    (cache_get (putList (cache_create C) ops) k1).1 = none ∧
    ∀ k ∈ rest, ((cache_get (putList (cache_create C) ops) k).1).isSome := by
  rcases List.eq_nil_or_concat ops with rfl | ⟨ops', oL, rfl⟩
  · simp at hlen
  simp only [List.concat_eq_append] at hkeys hlen ⊢
  have hopslen : ops'.length = C := by
    simp at hlen
    omega
  have hrestlen : rest.length = C := by
    have hl := congrArg List.length hkeys
    simp at hl
    omega
  rcases List.eq_nil_or_concat rest with rfl | ⟨rest', kL, rfl⟩
  · simp at hrestlen
    omega
  simp only [List.concat_eq_append] at hkeys hnd hrestlen ⊢
  have hrest'len : rest'.length + 1 = C := by
    simp at hrestlen
    omega
  have hmap : (ops'.map fun o => o.1) ++ [oL.1] = (k1 :: rest') ++ [kL] := by
    rw [List.cons_append]
    simpa using hkeys
  obtain ⟨hm, hLeq⟩ := List.append_inj' hmap (by simp)
  have hLa : oL.1 = kL := by simpa using hLeq
  rw [List.nodup_cons] at hnd
  obtain ⟨hk1, hndrest⟩ := hnd
  have hk1rest' : k1 ∉ rest' := fun h => hk1 (List.mem_append_left _ h)
  have hk1kL : k1 ≠ kL := fun h => hk1 (List.mem_append_right _ (by simp [h]))
  have hkLrest' : kL ∉ rest' := by
    intro h
    rcases List.nodup_append.mp hndrest with ⟨-, -, hdisj⟩
    exact hdisj h (by simp)
  have hnd' : (ops'.map fun o => o.1).Nodup := by
    rw [hm]
    exact List.Nodup.sublist (List.Sublist.cons₂ k1 (List.sublist_append_left rest' [kL]))
      (List.nodup_cons.mpr ⟨hk1, hndrest⟩)
  have hfill := putList_fill ops' (cache_create C) hnd'
    (by intro k hk; simp [cacheKeys, cache_create])
    (by simp [cache_create, hopslen])
  have hmidkeys : cacheKeys (putList (cache_create C) ops') = rest'.reverse ++ [k1] := by
    rw [hfill, hm]
    simp [cacheKeys, cache_create, List.reverse_cons]
  have hmidlen : (putList (cache_create C) ops').entries.length = C := by
    have hl := congrArg List.length hmidkeys
    simp [cacheKeys] at hl
    omega
  have hcapmid : (putList (cache_create C) ops').capacity = C := by
    rw [putList_capacity]
    rfl
  have habsL : oL.1 ∉ cacheKeys (putList (cache_create C) ops') := by
    rw [hmidkeys, hLa]
    simp only [List.mem_append, List.mem_reverse, List.mem_singleton, not_or]
    exact ⟨hkLrest', Ne.symm hk1kL⟩
  have hputLast : putList (cache_create C) (ops' ++ [oL]) =
      cache_put (putList (cache_create C) ops') oL.1 oL.2.1 oL.2.2.1 oL.2.2.2 := by
    simp [putList, List.foldl_append]
  have hfullpt := cacheKeys_put_absent_full (putList (cache_create C) ops')
    oL.1 oL.2.1 oL.2.2.1 oL.2.2.2 habsL (by rw [hmidlen, hcapmid])
  have hfinalkeys : cacheKeys (putList (cache_create C) (ops' ++ [oL]))
      = kL :: rest'.reverse := by
    rw [hputLast, hfullpt, hmidkeys, hLa, List.dropLast_concat]
  constructor
  · rw [cache_get_fst_none_iff, hfinalkeys]
    simp only [List.mem_cons, List.mem_reverse, not_or]
    exact ⟨hk1kL, hk1rest'⟩
  · intro k hk
    rw [cache_get_fst_isSome_iff, hfinalkeys]
    rcases List.mem_append.mp hk with h | h
    · exact List.mem_cons_of_mem _ (List.mem_reverse.mpr h)
    · simp at h
      simp [h]

/-! ### Reduction lemmas for `get_file` -/

theorem get_file_hit (env : Env) (cache : Cache) (p : String) (ce : CacheEntry)
    (cache1 : Cache)
    (hg : cache_get cache ("./serverroot" ++ p) = (some ce, cache1)) :
    get_file env cache p =
      (cache1,
       [Event.cacheGetEv ("./serverroot" ++ p),
        Event.respond { header := "HTTP/1.1 200 OK", content_type := ce.content_type,
                        body := ce.content, content_length := ce.content_length }]) := by
  simp [get_file, hg]

theorem get_file_miss_direct (env : Env) (cache : Cache) (p : String) (fd : FileData)
    (hmiss : (cache_get cache ("./serverroot" ++ p)).1 = none)
    (h1 : env.file_load ("./serverroot" ++ p) = some fd) :
    get_file env cache p =
      (cache_put cache ("./serverroot" ++ p) (env.mime_type_get ("./serverroot" ++ p))
        fd.data fd.size,
       [Event.cacheGetEv ("./serverroot" ++ p),
        Event.fileLoadEv ("./serverroot" ++ p),
        Event.cachePutEv ("./serverroot" ++ p) (env.mime_type_get ("./serverroot" ++ p))
          fd.data fd.size,
        Event.respond { header := "HTTP/1.1 200 OK",
                        content_type := env.mime_type_get ("./serverroot" ++ p),
                        body := fd.data, content_length := fd.size }]) := by
  have hg := cache_get_miss cache ("./serverroot" ++ p) hmiss
  simp [get_file, hg, h1]

theorem get_file_miss_fallback (env : Env) (cache : Cache) (p : String) (fd : FileData)
    (hmiss : (cache_get cache ("./serverroot" ++ p)).1 = none)
    (h1 : env.file_load ("./serverroot" ++ p) = none)
    (h2 : env.file_load ("./serverroot/" ++ p ++ "/index.html") = some fd) :
    get_file env cache p =
      (cache_put cache ("./serverroot/" ++ p ++ "/index.html")
        (env.mime_type_get ("./serverroot/" ++ p ++ "/index.html")) fd.data fd.size,
       [Event.cacheGetEv ("./serverroot" ++ p),
        Event.fileLoadEv ("./serverroot" ++ p),
        Event.fileLoadEv ("./serverroot/" ++ p ++ "/index.html"),
        Event.cachePutEv ("./serverroot/" ++ p ++ "/index.html")
          (env.mime_type_get ("./serverroot/" ++ p ++ "/index.html")) fd.data fd.size,
        Event.respond { header := "HTTP/1.1 200 OK",
                        content_type := env.mime_type_get ("./serverroot/" ++ p ++ "/index.html"),
                        body := fd.data, content_length := fd.size }]) := by
  have hg := cache_get_miss cache ("./serverroot" ++ p) hmiss
  simp [get_file, hg, h1, h2]

theorem get_file_miss_404 (env : Env) (cache : Cache) (p : String)
    (hmiss : (cache_get cache ("./serverroot" ++ p)).1 = none)
    (h1 : env.file_load ("./serverroot" ++ p) = none)
    (h2 : env.file_load ("./serverroot/" ++ p ++ "/index.html") = none) :
    get_file env cache p =
      (cache,
       [Event.cacheGetEv ("./serverroot" ++ p),
        Event.fileLoadEv ("./serverroot" ++ p),
        Event.fileLoadEv ("./serverroot/" ++ p ++ "/index.html")] ++ resp_404 env) := by
  have hg := cache_get_miss cache ("./serverroot" ++ p) hmiss
  simp [get_file, hg, h1, h2]

/-- Witness for C2: capacity 1, keys "a" then "b" — "a" is evicted and "b"
remains present. -/
theorem c2_witness :
    1 ≤ 1 ∧
    ((cache_get (putList (cache_create 1)
      [("a", "text/plain", [65], 1), ("b", "text/plain", [66], 1)]) "a").1 = none ∧
    ∀ k ∈ ["b"], ((cache_get (putList (cache_create 1)
      [("a", "text/plain", [65], 1), ("b", "text/plain", [66], 1)]) k).1).isSome) :=
  ⟨by decide,
   c2_lru_eviction 1 (by decide)
     [("a", "text/plain", [65], 1), ("b", "text/plain", [66], 1)]
     "a" ["b"] rfl rfl (by decide)⟩

/-! ### Claims about `/d20` (C3, C4, C10) -/

/-- C3: Every `GET /d20` request is answered with status 200, content type
`text/plain`, and a body that is the decimal string of an integer in
[1, 20] — the value `rand() % 20 + 1` drawn at `server.c:92`. -/
theorem c3_d20_response (env : Env) (t : Nat) (cache : Cache) :
    ∃ n, 1 ≤ n ∧ n ≤ 20 ∧
      (handle_http_request env t cache (some ⟨"GET", "/d20"⟩)).2 =
        [Event.respond { header := "HTTP/1.1 200 OK", content_type := "text/plain",
                         body := strBytes (Nat.repr n),
                         content_length := (strBytes (Nat.repr n)).length }] := by
  refine ⟨env.firstRand t % 20 + 1, by omega, ?_, ?_⟩
  · have h := Nat.mod_lt (env.firstRand t) (y := 20) (by omega)
    omega
  · simp [handle_http_request, get_d20]

/-- C4: Handling `GET /d20` never reads from and never writes to the
Content Cache: the cache state is returned unchanged and the event trace
contains no cache lookup and no cache insertion (`get_d20` at
`server.c:87` is not even passed the cache; dispatch at `server.c:217`). -/
theorem c4_d20_cache_frame (env : Env) (t : Nat) (cache : Cache) :
    (handle_http_request env t cache (some ⟨"GET", "/d20"⟩)).1 = cache ∧
    ∀ e ∈ (handle_http_request env t cache (some ⟨"GET", "/d20"⟩)).2,
      (∀ k, e ≠ Event.cacheGetEv k) ∧
      (∀ k ct b n, e ≠ Event.cachePutEv k ct b n) := by
  constructor
  · rfl
  · intro e he
    simp [handle_http_request, get_d20] at he
    subst he
    exact ⟨fun k h => Event.noConfusion h, fun k ct b n h => Event.noConfusion h⟩

/-- Witness for C4 at the concrete environment `envW`, time 0, and the
single response event of the resulting trace. -/
theorem c4_witness :
    Event.respond { header := "HTTP/1.1 200 OK", content_type := "text/plain",
                    body := strBytes (Nat.repr 1),
                    content_length := (strBytes (Nat.repr 1)).length }
      ∈ (handle_http_request envW 0 (cache_create 10) (some ⟨"GET", "/d20"⟩)).2 ∧
    (∀ k, Event.respond { header := "HTTP/1.1 200 OK", content_type := "text/plain",
                          body := strBytes (Nat.repr 1),
                          content_length := (strBytes (Nat.repr 1)).length }
            ≠ Event.cacheGetEv k) :=
  ⟨by decide,
   ((c4_d20_cache_frame envW 0 (cache_create 10)).2 _ (by decide)).1⟩

/-- C10: The `/d20` value is a deterministic function of the current time
in seconds: the handler reseeds with `srand(time(NULL))` on every call and
draws exactly once (`server.c:90-92`), so two `GET /d20` requests served
during the same `time(NULL)` second return equal values regardless of the
cache states, and the trace is the single response whose body is
determined by the seed `t`. -/
theorem c10_d20_deterministic_in_time (env : Env) (t : Nat) (c1 c2 : Cache) :
    (handle_http_request env t c1 (some ⟨"GET", "/d20"⟩)).2 =
      (handle_http_request env t c2 (some ⟨"GET", "/d20"⟩)).2 ∧
    (handle_http_request env t c1 (some ⟨"GET", "/d20"⟩)).2 =
      [Event.respond { header := "HTTP/1.1 200 OK", content_type := "text/plain",
                       body := strBytes (Nat.repr (env.firstRand t % 20 + 1)),
                       content_length := (strBytes (Nat.repr (env.firstRand t % 20 + 1))).length }] :=
  ⟨rfl, rfl⟩

/-! ### Claims about the static-file path (C5, C6, C7, C9) -/

/-- C5: For a `GET` request with URI `p` other than `/d20` that reaches
the load chain (a cache miss), the server serves the file resolved under
the server root (`"./serverroot" ++ p`, `server.c:139`); if that load
fails it falls back to loading the `index.html` under the requested path
(`"./serverroot/" ++ p ++ "/index.html"`, `server.c:158` — the code's
rendering of `./serverroot/<path>/index.html`); if that also fails it
responds 404 with the document loaded from `./serverfiles/404.html`. -/
theorem c5_static_file_chain (env : Env) (cache : Cache) (t : Nat) (p : String)
    (hp : p ≠ "/d20")
    (hmiss : (cache_get cache ("./serverroot" ++ p)).1 = none) :
    (∀ fd, env.file_load ("./serverroot" ++ p) = some fd →
      Event.respond { header := "HTTP/1.1 200 OK",
                      content_type := env.mime_type_get ("./serverroot" ++ p),
                      body := fd.data, content_length := fd.size }
        ∈ (handle_http_request env t cache (some ⟨"GET", p⟩)).2) ∧
    (∀ fd, env.file_load ("./serverroot" ++ p) = none →
      env.file_load ("./serverroot/" ++ p ++ "/index.html") = some fd →
      Event.respond { header := "HTTP/1.1 200 OK",
                      content_type := env.mime_type_get ("./serverroot/" ++ p ++ "/index.html"),
                      body := fd.data, content_length := fd.size }
        ∈ (handle_http_request env t cache (some ⟨"GET", p⟩)).2) ∧
    (∀ fd, env.file_load ("./serverroot" ++ p) = none →
      env.file_load ("./serverroot/" ++ p ++ "/index.html") = none →
      env.file_load ("./serverfiles/404.html") = some fd →
      Event.respond { header := "HTTP/1.1 404 NOT FOUND",
                      content_type := env.mime_type_get ("./serverfiles/404.html"),
                      body := fd.data, content_length := fd.size }
        ∈ (handle_http_request env t cache (some ⟨"GET", p⟩)).2) := by
  have hh : (handle_http_request env t cache (some ⟨"GET", p⟩)) = get_file env cache p := by
    simp [handle_http_request, hp]
  refine ⟨?_, ?_, ?_⟩
  · intro fd h1
    rw [hh, get_file_miss_direct env cache p fd hmiss h1]
    simp
  · intro fd h1 h2
    rw [hh, get_file_miss_fallback env cache p fd hmiss h1 h2]
    simp
  · intro fd h1 h2 h404
    rw [hh, get_file_miss_404 env cache p hmiss h1 h2]
    simp [resp_404, h404]

/-- Witness for C5 at `envW`: the direct load of `/x` succeeds and its
bytes are served with status 200. -/
theorem c5_witness :
    ("/x" : String) ≠ "/d20" ∧
    Event.respond { header := "HTTP/1.1 200 OK",
                    content_type := envW.mime_type_get ("./serverroot" ++ "/x"),
                    body := [120], content_length := 1 }
      ∈ (handle_http_request envW 0 (cache_create 10) (some ⟨"GET", "/x"⟩)).2 :=
  ⟨by decide,
   (c5_static_file_chain envW (cache_create 10) 0 "/x" (by decide) (by decide)).1
     ⟨[120], 1⟩ (by decide)⟩

/-- C6: A static-file request that misses the cache and whose file load
succeeds calls `cache_put` with the resolved file path as key
(`server.c:170` — the direct path, or the `index.html` fallback path when
that is the load that succeeded) before sending the response, and the
response body bytes and size equal the loaded file's bytes and size: the
full result of `get_file` is the updated cache and the trace
lookup-load-put-respond in program order. -/
theorem c6_put_before_respond (env : Env) (cache : Cache) (p : String)
    (hmiss : (cache_get cache ("./serverroot" ++ p)).1 = none) :
    (∀ fd, env.file_load ("./serverroot" ++ p) = some fd →
      get_file env cache p =
        (cache_put cache ("./serverroot" ++ p) (env.mime_type_get ("./serverroot" ++ p))
          fd.data fd.size,
         [Event.cacheGetEv ("./serverroot" ++ p),
          Event.fileLoadEv ("./serverroot" ++ p),
          Event.cachePutEv ("./serverroot" ++ p) (env.mime_type_get ("./serverroot" ++ p))
            fd.data fd.size,
          Event.respond { header := "HTTP/1.1 200 OK",
                          content_type := env.mime_type_get ("./serverroot" ++ p),
                          body := fd.data, content_length := fd.size }])) ∧
    (∀ fd, env.file_load ("./serverroot" ++ p) = none →
      env.file_load ("./serverroot/" ++ p ++ "/index.html") = some fd →
      get_file env cache p =
        (cache_put cache ("./serverroot/" ++ p ++ "/index.html")
          (env.mime_type_get ("./serverroot/" ++ p ++ "/index.html")) fd.data fd.size,
         [Event.cacheGetEv ("./serverroot" ++ p),
          Event.fileLoadEv ("./serverroot" ++ p),
          Event.fileLoadEv ("./serverroot/" ++ p ++ "/index.html"),
          Event.cachePutEv ("./serverroot/" ++ p ++ "/index.html")
            (env.mime_type_get ("./serverroot/" ++ p ++ "/index.html")) fd.data fd.size,
          Event.respond { header := "HTTP/1.1 200 OK",
                          content_type := env.mime_type_get ("./serverroot/" ++ p ++ "/index.html"),
                          body := fd.data, content_length := fd.size }])) :=
  ⟨fun fd h1 => get_file_miss_direct env cache p fd hmiss h1,
   fun fd h1 h2 => get_file_miss_fallback env cache p fd hmiss h1 h2⟩

/-- Witness for C6 at `envW` and path `/x` (direct load succeeds). -/
theorem c6_witness :
    (cache_get (cache_create 10) ("./serverroot" ++ "/x")).1 = none ∧
    get_file envW (cache_create 10) "/x" =
      (cache_put (cache_create 10) ("./serverroot" ++ "/x")
        (envW.mime_type_get ("./serverroot" ++ "/x")) [120] 1,
       [Event.cacheGetEv ("./serverroot" ++ "/x"),
        Event.fileLoadEv ("./serverroot" ++ "/x"),
        Event.cachePutEv ("./serverroot" ++ "/x") (envW.mime_type_get ("./serverroot" ++ "/x"))
          [120] 1,
        Event.respond { header := "HTTP/1.1 200 OK",
                        content_type := envW.mime_type_get ("./serverroot" ++ "/x"),
                        body := [120], content_length := 1 }]) :=
  ⟨by decide,
   (c6_put_before_respond envW (cache_create 10) "/x" (by decide)).1 ⟨[120], 1⟩ (by decide)⟩

/-- C7: If loading the fixed 404 document `./serverfiles/404.html` fails
when a 404 response is needed (both the direct load and the `index.html`
fallback failed), the process terminates via `exit(3)` (`server.c:119`) —
a nonzero exit code distinct from the listener-failure code `exit(1)` —
and no response is sent for the request. -/
theorem c7_missing_404_fatal (env : Env) (cache : Cache) (p : String)
    (hmiss : (cache_get cache ("./serverroot" ++ p)).1 = none)
    (h1 : env.file_load ("./serverroot" ++ p) = none)
    (h2 : env.file_load ("./serverroot/" ++ p ++ "/index.html") = none)
    (h404 : env.file_load ("./serverfiles/404.html") = none) :
    (get_file env cache p).2 =
      [Event.cacheGetEv ("./serverroot" ++ p),
       Event.fileLoadEv ("./serverroot" ++ p),
       Event.fileLoadEv ("./serverroot/" ++ p ++ "/index.html"),
       Event.fileLoadEv ("./serverfiles/404.html"),
       Event.exitProc 3] ∧
    (3 : Nat) ≠ 0 ∧ (3 : Nat) ≠ 1 ∧
    ∀ r, Event.respond r ∉ (get_file env cache p).2 := by
  have he : (get_file env cache p).2 =
      [Event.cacheGetEv ("./serverroot" ++ p),
       Event.fileLoadEv ("./serverroot" ++ p),
       Event.fileLoadEv ("./serverroot/" ++ p ++ "/index.html"),
       Event.fileLoadEv ("./serverfiles/404.html"),
       Event.exitProc 3] := by
    rw [get_file_miss_404 env cache p hmiss h1 h2]
    simp [resp_404, h404]
  refine ⟨he, by omega, by omega, ?_⟩
  intro r
  rw [he]
  simp

/-- Witness for C7 at the file-less environment `envEmpty` and path `/x`. -/
theorem c7_witness :
    envEmpty.file_load ("./serverfiles/404.html") = none ∧
    (get_file envEmpty (cache_create 10) "/x").2 =
      [Event.cacheGetEv ("./serverroot" ++ "/x"),
       Event.fileLoadEv ("./serverroot" ++ "/x"),
       Event.fileLoadEv ("./serverroot/" ++ "/x" ++ "/index.html"),
       Event.fileLoadEv ("./serverfiles/404.html"),
       Event.exitProc 3] :=
  ⟨by decide,
   (c7_missing_404_fatal envEmpty (cache_create 10) "/x"
     (by decide) (by decide) (by decide) (by decide)).1⟩

/-- In every branch, `cache_put` pushes the new entry on top of a sublist
of the old entries. -/
theorem cache_put_entries_cases (c : Cache) (k ct : String) (b : List Nat) (n : Nat) :
    ∃ l, (cache_put c k ct b n).entries = (⟨k, ct, b, n⟩ : CacheEntry) :: l ∧
      l.Sublist c.entries := by
  unfold cache_put
  split
  · exact ⟨_, rfl, List.filter_sublist _⟩
  · split
    · exact ⟨_, rfl, List.dropLast_sublist _⟩
    · exact ⟨_, rfl, List.Sublist.refl _⟩

/-- A key present after `cache_put` is the inserted key or was already
present: eviction and overwrite never add other keys. -/
theorem cacheKeys_put_mem (c : Cache) (k ct : String) (b : List Nat) (n : Nat)
    (x : String) (hx : x ∈ cacheKeys (cache_put c k ct b n)) :
    x = k ∨ x ∈ cacheKeys c := by
  obtain ⟨l, hl, hsub⟩ := cache_put_entries_cases c k ct b n
  have hx' : x ∈ ((⟨k, ct, b, n⟩ : CacheEntry) :: l).map (·.key) := by
    rw [← hl]
    exact hx
  simp only [List.map_cons, List.mem_cons] at hx'
  rcases hx' with h | h
  · exact Or.inl h
  · exact Or.inr (List.Sublist.mem h (hsub.map (·.key)))

/-- Any response event produced by `get_file` carries status line 200 or
404 — established by exhausting all branches of the handler. -/
theorem get_file_respond_header (env : Env) (cache : Cache) (p : String) (r : Response)
    (hr : Event.respond r ∈ (get_file env cache p).2) :
    r.header = "HTTP/1.1 200 OK" ∨ r.header = "HTTP/1.1 404 NOT FOUND" := by
  rcases ho : (cache_get cache ("./serverroot" ++ p)).1 with _ | ce
  · rcases h1 : env.file_load ("./serverroot" ++ p) with _ | fd
    · rcases h2 : env.file_load ("./serverroot/" ++ p ++ "/index.html") with _ | fd2
      · rw [get_file_miss_404 env cache p ho h1 h2] at hr
        rcases h404 : env.file_load ("./serverfiles/404.html") with _ | fd4
        · simp [resp_404, h404] at hr
        · simp [resp_404, h404] at hr
          subst hr
          right
          rfl
      · rw [get_file_miss_fallback env cache p fd2 ho h1 h2] at hr
        simp at hr
        subst hr
        left
        rfl
    · rw [get_file_miss_direct env cache p fd ho h1] at hr
      simp at hr
      subst hr
      left
      rfl
  · have hg : cache_get cache ("./serverroot" ++ p) =
        (some ce, (cache_get cache ("./serverroot" ++ p)).2) := by
      rw [← ho]
    rw [get_file_hit env cache p ce _ hg] at hr
    simp at hr
    subst hr
    left
    rfl

/-- C8: Every HTTP response the server sends for a handled request has
status 200 or status 404 and never any other status (`send_response` is
invoked only with these two status lines, `server.c:99,124,147,172`);
requests that produce no response — non-GET methods (`server.c:214`) and
transient `recv` failure (`server.c:203-207`) — result only in the
connection being closed without a response. -/
theorem c8_only_200_or_404 (env : Env) (t : Nat) (cache : Cache) (recvd : Option Request) :
    (∀ r, Event.respond r ∈ (handle_http_request env t cache recvd).2 →
        r.header = "HTTP/1.1 200 OK" ∨ r.header = "HTTP/1.1 404 NOT FOUND") ∧
    (∀ req, recvd = some req → req.method ≠ "GET" →
        (handle_http_request env t cache recvd).2 = []) ∧
    (recvd = none → (handle_http_request env t cache recvd).2 = []) := by
  refine ⟨?_, ?_, ?_⟩
  · intro r hr
    rcases recvd with _ | req
    · simp [handle_http_request] at hr
    · by_cases hm : req.method = "GET"
      · by_cases hu : req.uri = "/d20"
        · simp [handle_http_request, hm, hu, get_d20] at hr
          subst hr
          left
          rfl
        · have hh : handle_http_request env t cache (some req) = get_file env cache req.uri := by
            simp [handle_http_request, hm, hu]
          rw [hh] at hr
          exact get_file_respond_header env cache req.uri r hr
      · simp [handle_http_request, hm] at hr
  · intro req hre hm
    subst hre
    simp [handle_http_request, hm]
  · intro h
    subst h
    rfl

/-- Witness for C8: the response to `GET /x` in the concrete environment
`envW` has one of the two permitted status lines. -/
theorem c8_witness :
    ({ header := "HTTP/1.1 200 OK", content_type := "text/html",
       body := [120], content_length := 1 } : Response).header = "HTTP/1.1 200 OK" ∨
    ({ header := "HTTP/1.1 200 OK", content_type := "text/html",
       body := [120], content_length := 1 } : Response).header = "HTTP/1.1 404 NOT FOUND" :=
  (c8_only_200_or_404 envW 0 (cache_create 10) (some ⟨"GET", "/x"⟩)).1 _ (by decide)

/-- C9: When the direct load fails but the `index.html` fallback succeeds,
the entry is cached under the fallback key
`"./serverroot/" ++ path ++ "/index.html"` (`filepath` is overwritten at
`server.c:158` before the `cache_put` at `server.c:170`), while every
subsequent identical request looks up the original key
`"./serverroot" ++ path` (`server.c:139-142`); the two keys always
differ, so such requests miss the cache and reload the file from disk on
every repetition. -/
theorem c9_fallback_cache_key_mismatch (env : Env) (cache : Cache) (p : String)
    (hmiss : (cache_get cache ("./serverroot" ++ p)).1 = none)
    (h1 : env.file_load ("./serverroot" ++ p) = none)
    (h2 : (env.file_load ("./serverroot/" ++ p ++ "/index.html")).isSome) :
    ("./serverroot/" ++ p ++ "/index.html") ≠ ("./serverroot" ++ p) ∧
    (∀ fd, env.file_load ("./serverroot/" ++ p ++ "/index.html") = some fd →
      (get_file env cache p).1 =
        cache_put cache ("./serverroot/" ++ p ++ "/index.html")
          (env.mime_type_get ("./serverroot/" ++ p ++ "/index.html")) fd.data fd.size) ∧
    (∀ n, (cache_get (iterateGetFile env p n cache) ("./serverroot" ++ p)).1 = none ∧
      Event.fileLoadEv ("./serverroot/" ++ p ++ "/index.html")
        ∈ (get_file env (iterateGetFile env p n cache) p).2) := by
  obtain ⟨fd, hfd⟩ := Option.isSome_iff_exists.mp h2
  have hne : ("./serverroot/" ++ p ++ "/index.html") ≠ ("./serverroot" ++ p) := by
    intro h
    have hl := congrArg String.length h
    have e1 : ("./serverroot/" : String).length = 13 := by decide
    have e2 : ("/index.html" : String).length = 11 := by decide
    have e3 : ("./serverroot" : String).length = 12 := by decide
    simp only [String.length_append, e1, e2, e3] at hl
    omega
  have hstart : ("./serverroot" ++ p) ∉ cacheKeys cache :=
    (cache_get_fst_none_iff cache _).mp hmiss
  have hstep : ∀ c : Cache, ("./serverroot" ++ p) ∉ cacheKeys c →
      ("./serverroot" ++ p) ∉ cacheKeys (get_file env c p).1 := by
    intro c hc
    have hm' : (cache_get c ("./serverroot" ++ p)).1 = none :=
      (cache_get_fst_none_iff c _).mpr hc
    rw [get_file_miss_fallback env c p fd hm' h1 hfd]
    intro hmem
    rcases cacheKeys_put_mem c _ _ _ _ _ hmem with h | h
    · exact hne h.symm
    · exact hc h
  have hinv : ∀ n (c : Cache), ("./serverroot" ++ p) ∉ cacheKeys c →
      ("./serverroot" ++ p) ∉ cacheKeys (iterateGetFile env p n c) := by
    intro n
    induction n with
    | zero => intro c hc; exact hc
    | succ m ih => intro c hc; exact ih _ (hstep c hc)
  refine ⟨hne, fun fd' hfd' => ?_, fun n => ?_⟩
  · rw [get_file_miss_fallback env cache p fd' hmiss h1 hfd']
  · have hm' : (cache_get (iterateGetFile env p n cache) ("./serverroot" ++ p)).1 = none :=
      (cache_get_fst_none_iff _ _).mpr (hinv n cache hstart)
    refine ⟨hm', ?_⟩
    rw [get_file_miss_fallback env (iterateGetFile env p n cache) p fd hm' h1 hfd]
    simp

/-- Witness for C9 at `envW` and the directory request `/dir`: after one
request the second still misses on the original key and reloads the
fallback file. -/
theorem c9_witness :
    (cache_get (cache_create 10) ("./serverroot" ++ "/dir")).1 = none ∧
    ((cache_get (iterateGetFile envW ("/dir") 1 (cache_create 10)) ("./serverroot" ++ "/dir")).1 = none ∧
      Event.fileLoadEv ("./serverroot/" ++ "/dir" ++ "/index.html")
        ∈ (get_file envW (iterateGetFile envW ("/dir") 1 (cache_create 10)) ("/dir")).2) :=
  ⟨by decide,
   (c9_fallback_cache_key_mismatch envW (cache_create 10) "/dir"
     (by decide) (by decide) (by decide)).2.2 1⟩

end CWebServer
